import Mathlib

/-!
Shallow embedding of the Finance_Dashboard core (src/streamlit_app.py and
src/app/data.py) and verification of the frozen claims about it.

Tables are modelled column-wise, as pandas stores them: a column has a name,
a dtype tag and an ordered list of cells; a table is the ordered list of its
columns, with all columns of equal length (`aligned`).  Cell values are the
tagged union used by the program: missing (NaN/NaT), text, number, and
date (calendar day count, day granularity, no timezone).  Numbers are
modelled as integers: every numeric value the claims exercise is integral,
and Python float reprs round-trip exactly on them; fractional values that
arise inside the program (scaled changes, percentages) are handled as exact
integer fractions at the point of formatting.

Library functions of pandas that the source calls (`pd.to_datetime`,
`pd.to_numeric`) are modelled by executable Lean functions restricted to the
literal formats exercised in this development (ISO `YYYY-M-D` and
`M/D/YYYY` dates; plain decimal numerals); every claim settled below is
about the source's own thresholds, orderings and formulas, not about the
extremities of the pandas parsing grammar.
-/

namespace FinDash

/-- A single cell value of a table: the tagged union
{Missing, Text, Number, Date}.  `missing` models NaN/NaT; `date d` is a
calendar timestamp at day granularity, `d` days from 1970-01-01. -/
inductive Cell where
  | missing : Cell
  | text : String → Cell
  | num : Int → Cell
  | date : Int → Cell
deriving DecidableEq, Repr

/-- The pandas dtype tag carried by a column: `objectT` (raw/str), `datetimeT`
(datetime64, produced by `pd.to_datetime`), `floatT` (numeric, produced by
`pd.to_numeric`). -/
inductive Dtype where
  | objectT : Dtype
  | datetimeT : Dtype
  | floatT : Dtype
deriving DecidableEq, Repr

/-- A named column: name, dtype and the ordered cells. -/
structure Column where
  name : String
  dtype : Dtype
  cells : List Cell
deriving DecidableEq, Repr

/-- A table is its ordered list of columns. -/
abbrev Table := List Column

/-- Python `len(df)`: the number of rows (the length of the first column; every
column of a well-formed table has this length). -/
def rowCount (t : Table) : Nat :=
  match t with
  | [] => 0
  | c :: _ => c.cells.length

/-- Well-formedness: every column has the same number of cells. -/
def aligned (t : Table) : Prop := ∀ c ∈ t, c.cells.length = rowCount t

instance (t : Table) : Decidable (aligned t) := by
  unfold aligned; infer_instance

/-! String manipulation is implemented over `List Char` by structural
recursion (the char list is the kernel model of a string), mirroring the
Python string operations the source uses. -/

def leadsList : List Char → List Char → Bool
  | [], _ => true
  | _ :: _, [] => false
  | a :: as, b :: bs => a = b && leadsList as bs

def containsList (needle : List Char) : List Char → Bool
  | [] => needle.isEmpty
  | c :: r => leadsList needle (c :: r) || containsList needle (r)

/-- Python's `needle in hay` on strings (substring containment). -/
def containsSub (hay needle : String) : Bool :=
  containsList needle.toList hay.toList

/-- Python `str.split(sep)` for a one-character separator. -/
def splitChar (sep : Char) : List Char → List (List Char)
  | [] => [[]]
  | c :: rest =>
      let r := splitChar sep rest
      if c = sep then [] :: r
      else
        match r with
        | [] => [[c]]
        | h :: t => (c :: h) :: t

/-- Python `str.strip()` on a char list. -/
def trimList (l : List Char) : List Char :=
  (((l.dropWhile (·.isWhitespace)).reverse.dropWhile (·.isWhitespace))).reverse

/-- Python `str.endswith(suffix)`. -/
def endsList (l suffix : List Char) : Bool :=
  leadsList suffix.reverse l.reverse

/-! ## Calendar arithmetic

Day counts from the civil calendar (proleptic Gregorian), the standard
days-from-civil algorithm.  All intermediate quantities are nonnegative for
the years ≥ 1 admitted by the date grammar, so the Int division convention
is immaterial. -/

def isLeap (y : Int) : Bool :=
  (y % 4 == 0 && y % 100 != 0) || y % 400 == 0

def daysInMonth (y : Int) (m : Nat) : Nat :=
  if m = 2 then (if isLeap y then 29 else 28)
  else if m = 4 ∨ m = 6 ∨ m = 9 ∨ m = 11 then 30
  else 31

/-- Days from 1970-01-01 of the civil date y-m-d (valid for y ≥ 1). -/
def daysFromCivil (y : Int) (m d : Nat) : Int :=
  let y2 : Int := if m ≤ 2 then y - 1 else y
  let era : Int := y2 / 400
  let yoe : Int := y2 - era * 400
  let mp : Nat := (m + 9) % 12
  let doy : Int := (153 * (mp : Int) + 2) / 5 + (d : Int) - 1
  let doe : Int := yoe * 365 + yoe / 4 - yoe / 100 + doy
  era * 146097 + doe - 719468

/-- Inverse of `daysFromCivil` (for rendering a date cell as text). -/
def civilFromDays (z0 : Int) : Int × Nat × Nat :=
  let z : Int := z0 + 719468
  let era : Int := (if z ≥ 0 then z else z - 146096) / 146097
  let doe : Int := z - era * 146097
  let yoe : Int := (doe - doe / 1460 + doe / 36524 - doe / 146096) / 365
  let y : Int := yoe + era * 400
  let doy : Int := doe - (365 * yoe + yoe / 4 - yoe / 100)
  let mp : Int := (5 * doy + 2) / 153
  let d : Int := doy - (153 * mp + 2) / 5 + 1
  let m : Int := if mp < 10 then mp + 3 else mp - 9
  ((if m ≤ 2 then y + 1 else y), m.toNat, d.toNat)

/-! ## Cell-level coercions -/

def natOfDigits (l : List Char) : Nat :=
  l.foldl (fun a c => 10 * a + (c.toNat - 48)) 0

def allDigits (l : List Char) : Bool :=
  l.all (·.isDigit) && !l.isEmpty

def goodLen12 (l : List Char) : Bool :=
  allDigits l && decide (l.length ≤ 2)

/-- Build a day count from numeral components, validating the calendar
(month 1–12, day within the month, year ≥ 1). -/
def mkDate (y m d : Nat) : Option Int :=
  if 1 ≤ y ∧ 1 ≤ m ∧ m ≤ 12 ∧ 1 ≤ d ∧ d ≤ daysInMonth (y : Int) m then
    some (daysFromCivil (y : Int) m d)
  else none

/-- Models `pd.to_datetime` on one string value (`errors="coerce"`),
restricted to the `YYYY-M-D` and `M/D/YYYY` shapes used in this
development; anything else coerces to missing. -/
def parseDate (s : String) : Option Int :=
  let s2 := trimList s.toList
  match splitChar '-' s2 with
  | [ys, ms, ds] =>
      if allDigits ys && decide (ys.length = 4) && goodLen12 ms && goodLen12 ds then
        mkDate (natOfDigits ys) (natOfDigits ms) (natOfDigits ds)
      else none
  | _ =>
      match splitChar '/' s2 with
      | [ms, ds, ys] =>
          if goodLen12 ms && goodLen12 ds && allDigits ys && decide (ys.length = 4) then
            mkDate (natOfDigits ys) (natOfDigits ms) (natOfDigits ds)
          else none
      | _ => none

/-- One nanosecond-epoch day in `pd.to_datetime`'s numeric interpretation. -/
def nsPerDay : Int := 86400000000000

/-- Models `pd.to_datetime(x, errors="coerce")` on one cell: missing stays
missing (NaT), an existing timestamp is kept, a number is read as epoch
nanoseconds, text goes through the date grammar. -/
def toDatetimeCell (x : Cell) : Cell :=
  match x with
  | Cell.missing => Cell.missing
  | Cell.date d => Cell.date d
  | Cell.num q => Cell.date (Int.fdiv q nsPerDay)
  | Cell.text s =>
      match parseDate s with
      | some d => Cell.date d
      | none => Cell.missing

/-- Models `pd.to_datetime(series, errors="coerce")`: the column is coerced
cellwise and its dtype becomes datetime64. -/
def toDatetimeColumn (c : Column) : Column :=
  ⟨c.name, Dtype.datetimeT, c.cells.map toDatetimeCell⟩

/-- Embeds `coerce_date_column` (src/app/data.py): re-parse the named column as
datetime (the copy-and-return of the source is value semantics here). -/
def coerce_date_column (t : Table) (nm : String) : Table :=
  t.map (fun c => if c.name = nm then toDatetimeColumn c else c)

/-- The replacement chain of `safe_number`:
`.str.replace(",", "").str.replace("₩", "").str.replace("$", "").str.strip()`
(replacing a one-character pattern by the empty string removes every
occurrence of that character). -/
def stripMoney (l : List Char) : List Char :=
  trimList (l.filter (fun c => c ≠ ',' && c ≠ '₩' && c ≠ '$'))

/-- Parse a plain integer numeral (optional sign, digits) — the shapes
`float()` accepts that this development exercises are all integral. -/
def parseIntNum (l : List Char) : Option Int :=
  let sgn : Bool := l.head? = some '-'
  let l2 : List Char :=
    match l with
    | '-' :: r => r
    | '+' :: r => r
    | r => r
  if allDigits l2 then
    some (if sgn then -(natOfDigits l2 : Int) else (natOfDigits l2 : Int))
  else none

/-- Embeds `safe_number` on one cell: `astype(str)` then the strip chain then
`pd.to_numeric(errors="coerce")`.  A number round-trips exactly (Python
float reprs are exact), missing and timestamps coerce to missing, text is
parsed after stripping separators and currency signs. -/
def safeNumberCell (x : Cell) : Cell :=
  match x with
  | Cell.missing => Cell.missing
  | Cell.num q => Cell.num q
  | Cell.date _ => Cell.missing
  | Cell.text s =>
      match parseIntNum (stripMoney s.toList) with
      | some q => Cell.num q
      | none => Cell.missing

/-- Embeds `safe_number` (src/app/data.py) on a whole series. -/
def safe_number (xs : List Cell) : List Cell :=
  xs.map safeNumberCell

/-! ## The date-shape regular expressions of `_prepare`

`re.search` of the four patterns
`\d{4}-\d{1,2}-\d{1,2}`, `\d{1,2}/\d{1,2}/\d{4}`,
`\d{4}년\s*\d{1,2}월\s*\d{1,2}일`, `\d{1,2}월\s*\d{1,2}일`
over `str(val)`.  Each separator character is a non-digit, so the greedy
`\d{1,2}` collapses to a deterministic choice on whether the second
character is the separator; `searchPat` supplies the any-position semantics
of `re.search`. -/

def isD (c : Char) : Bool := c.isDigit

def midIso : List Char → Bool
  | e :: '-' :: f :: _ => isD e && isD f
  | e :: g :: '-' :: f :: _ => isD e && isD g && isD f
  | _ => false

def startsIso : List Char → Bool
  | a :: b :: c :: d :: '-' :: rest =>
      isD a && isD b && isD c && isD d && midIso rest
  | _ => false

def midSlash : List Char → Bool
  | a :: '/' :: w :: x :: y :: z :: _ => isD a && isD w && isD x && isD y && isD z
  | a :: b :: '/' :: w :: x :: y :: z :: _ =>
      isD a && isD b && isD w && isD x && isD y && isD z
  | _ => false

def startsSlash : List Char → Bool
  | a :: '/' :: rest => isD a && midSlash rest
  | a :: b :: '/' :: rest => isD a && isD b && midSlash rest
  | _ => false

def kDay : List Char → Bool
  | a :: '일' :: _ => isD a
  | a :: b :: '일' :: _ => isD a && isD b
  | _ => false

def kMonthDay : List Char → Bool
  | a :: '월' :: rest => isD a && kDay (rest.dropWhile (·.isWhitespace))
  | a :: b :: '월' :: rest => isD a && isD b && kDay (rest.dropWhile (·.isWhitespace))
  | _ => false

def startsKYMD : List Char → Bool
  | a :: b :: c :: d :: '년' :: rest =>
      isD a && isD b && isD c && isD d && kMonthDay (rest.dropWhile (·.isWhitespace))
  | _ => false

/-- Python `re.search`: does the pattern match starting at any position? -/
def searchPat (p : List Char → Bool) : List Char → Bool
  | [] => p []
  | c :: r => p (c :: r) || searchPat p (r)

/-- Python `str(val)` for a sampled cell (only text cells matter to the patterns:
a numeric repr never contains a date shape, and missing cells are dropped
before sampling). -/
def cellStr (x : Cell) : String :=
  match x with
  | Cell.missing => "nan"
  | Cell.text s => s
  | Cell.num q => toString q
  | Cell.date d =>
      let c := civilFromDays d
      let pad : Nat → String := fun n => if n < 10 then "0" ++ toString n else toString n
      toString c.1 ++ "-" ++ pad c.2.1 ++ "-" ++ pad c.2.2 ++ " 00:00:00"

/-- Any of the four date patterns occurs in the cell's string form. -/
def dateLike (x : Cell) : Bool :=
  let cs := (cellStr x).toList
  searchPat startsIso cs || searchPat startsSlash cs
    || searchPat startsKYMD cs || searchPat kMonthDay cs

/-! ## `_prepare` (src/streamlit_app.py, the SchemaInferencer) -/

/-- The name condition of `_prepare`'s first loop:
`"date" in col.lower() or col.endswith(("월", "날짜", "일", "시간"))`. -/
def prepKeyword (name : String) : Bool :=
  let low := name.toList.map Char.toLower
  containsList "date".toList low || endsList name.toList "월".toList
    || endsList name.toList "날짜".toList || endsList name.toList "일".toList
    || endsList name.toList "시간".toList

/-- One column through `_prepare`'s first loop: a date-keyword name forces
date coercion; otherwise an object column is replaced by its numeric
coercion when `pd.notna(converted).sum() >= max(3, int(0.5 * len(column)))`
(note: `len` counts all cells, missing included; `int` truncates, giving
`length / 2`). -/
def pass1Col (c : Column) : Column :=
  if prepKeyword c.name then toDatetimeColumn c
  else if c.dtype = Dtype.objectT then
    let conv := c.cells.map safeNumberCell
    if conv.countP (fun x => x ≠ Cell.missing) ≥ max 3 (c.cells.length / 2) then
      ⟨c.name, Dtype.floatT, conv⟩
    else c
  else c

/-- One column through `_prepare`'s second loop: on a still-object column,
sample the first 20 non-missing cells; if at least 70% of the sample looks
date-shaped (`date_like_count >= len(sample) * 0.7`, modelled as the exact
rational comparison `10 * count ≥ 7 * len`), coerce the whole column. -/
def pass2Col (c : Column) : Column :=
  if c.dtype = Dtype.objectT then
    if ((c.cells.filter (fun x => x ≠ Cell.missing)).take 20).length > 0 then
      if 10 * ((c.cells.filter (fun x => x ≠ Cell.missing)).take 20).countP dateLike
          ≥ 7 * ((c.cells.filter (fun x => x ≠ Cell.missing)).take 20).length then
        toDatetimeColumn c
      else c
    else c
  else c

/-- A column's net transformation through `_prepare` (both loops act on each
column independently). -/
def preparedCol (c : Column) : Column := pass2Col (pass1Col c)

/-- Embeds `_prepare` over the whole table. -/
def prepare (t : Table) : Table := t.map preparedCol

/-! ## Column-letter addressing (src/app/data.py) -/

/-- The typed failures of the addressing helpers: `ValueError("Invalid
column letter")` and the out-of-range `IndexError`. -/
inductive AddrErr where
  | invalidLetter : AddrErr
  | outOfRange : AddrErr
deriving DecidableEq, Repr

/-- The accumulating loop of `column_index_from_letter`: raises on the first
character outside A–Z, otherwise bijective base-26 accumulation. -/
def letterLoop : List Char → Int → Except AddrErr Int
  | [], v => Except.ok (v - 1)
  | ch :: r, v =>
      if 'A' ≤ ch ∧ ch ≤ 'Z' then letterLoop r (v * 26 + ((ch.toNat : Int) - 64))
      else Except.error AddrErr.invalidLetter

/-- Embeds `column_index_from_letter`: trim, uppercase, accumulate.  On the empty
string the loop body never runs and the function returns `0 - 1 = -1`
without raising. -/
def column_index_from_letter (letter : String) : Except AddrErr Int :=
  letterLoop ((trimList letter.toList).map Char.toUpper) 0

/-- Embeds `get_series_by_letter`: resolve the letter, raise `IndexError` when the
index is negative or ≥ the column count, else positional lookup. -/
def get_series_by_letter (t : Table) (letter : String) : Except AddrErr Column :=
  match column_index_from_letter letter with
  | Except.error e => Except.error e
  | Except.ok idx =>
      if idx < 0 ∨ (t.length : Int) ≤ idx then Except.error AddrErr.outOfRange
      else Except.ok (t.getD idx.toNat ⟨"", Dtype.objectT, []⟩)

/-! ## `_apply_time_filter` (src/streamlit_app.py)

The function both resolves the date column — possibly writing coerced
values back into the caller's DataFrame — and filters.  It is embedded by
explicit state passing: `applyTimeFilter` returns the final state of the
input table together with the returned table. -/

/-- Python truthiness of the `date_col` variable (`None` or a column name):
`not date_col` is true for `None` and for the empty string. -/
def falsyOpt (d : Option String) : Bool :=
  match d with
  | none => true
  | some s => s = ""

/-- Replace the column(s) named `nm` (the effect of `df[nm] = series`). -/
def setCol (t : Table) (nm : String) (newc : Column) : Table :=
  t.map (fun c => if c.name = nm then newc else c)

/-- Pandas `df[nm]` lookup (first column of that name; a table never uses the
default in this development). -/
def getColD (t : Table) (nm : String) : Column :=
  (t.find? (fun c => c.name = nm)).getD ⟨nm, Dtype.objectT, []⟩

/-- Strategy 1: `next((c for c in df.columns if str(df[c].dtype)
.startswith("datetime")), None)`. -/
def strat1 (t : Table) : Option String :=
  (t.find? (fun c => c.dtype = Dtype.datetimeT)).map (fun c => c.name)

/-- The keyword list of strategy 2:
`["date", "날짜", "월", "일", "time", "시간"]`, substring match against
`col.lower()`. -/
def hintHit (name : String) : Bool :=
  let low := name.toList.map Char.toLower
  containsList "date".toList low || containsList "날짜".toList low
    || containsList "월".toList low || containsList "일".toList low
    || containsList "time".toList low || containsList "시간".toList low

/-- Number of cells of a column that survive full date coercion
(`pd.to_datetime(col, errors="coerce").notna().sum()`). -/
def parseOkCnt (c : Column) : Nat :=
  c.cells.countP (fun x => toDatetimeCell x ≠ Cell.missing)

/-- Strategy 2 (name-hint scan): first keyword-named column whose full
coercion leaves strictly more than 50% of the table's rows non-missing
(`notna().sum() > len(df) * 0.5`, exact as `2 * count > len`); on success
the coerced column is written back into the table. -/
def strat2 (t : Table) : Option (String × Table) :=
  match t.find? (fun c => hintHit c.name && decide (2 * parseOkCnt c > rowCount t)) with
  | some c => some (c.name, setCol t c.name (toDatetimeColumn c))
  | none => none

/-- Strategy 3's acceptance test: `pd.to_datetime(df[col].head(10),
errors="coerce").notna().sum() >= 5` — the first 10 cells by position,
missing cells included in the window. -/
def probeOk (c : Column) : Bool :=
  (c.cells.take 10).countP (fun x => toDatetimeCell x ≠ Cell.missing) ≥ 5

/-- Strategy 3 (content probe): first column passing `probeOk`; on success
the whole column is coerced and written back. -/
def strat3 (t : Table) : Option (String × Table) :=
  match t.find? probeOk with
  | some c => some (c.name, setCol t c.name (toDatetimeColumn c))
  | none => none

/-- The `if not date_col:` guard around strategy 2, threading the current
(possibly already mutated) table. -/
def step2 (r : Option String × Table) : Option String × Table :=
  if falsyOpt r.1 then
    match strat2 r.2 with
    | some p => (some p.1, p.2)
    | none => r
  else r

/-- The `if not date_col:` guard around strategy 3. -/
def step3 (r : Option String × Table) : Option String × Table :=
  if falsyOpt r.1 then
    match strat3 r.2 with
    | some p => (some p.1, p.2)
    | none => r
  else r

/-- The date-column resolution block of `_apply_time_filter`: strategy 1,
then (if `not date_col`) strategy 2, then (if still `not date_col`)
strategy 3, threading the possibly-mutated table. -/
def resolveDate (t : Table) : Option String × Table :=
  step3 (step2 (strat1 t, t))

/-- The `elif` chain mapping a bounded filter label to its day count. -/
def windowDaysList : List (String × Int) :=
  [("최근 3개월", 90), ("최근 6개월", 180), ("최근 9개월", 270),
   ("최근 12개월", 365), ("최근 18개월", 540), ("최근 24개월", 730)]

/-- Pandas `df[date_col].max()`: maximum over the non-missing dates, none (NaT)
when the column has no date value. -/
def colMax (t : Table) (nm : String) : Option Int :=
  ((getColD t nm).cells.filterMap (fun x =>
      match x with
      | Cell.date d => some d
      | _ => none)).foldl
    (fun a d =>
      match a with
      | none => some d
      | some m => some (max m d)) none

/-- Elementwise `cell >= cutoff` of the boolean mask: a NaT cutoff or a
non-date cell compares false. -/
def cellGE (x : Cell) (cutoff : Option Int) : Bool :=
  match x, cutoff with
  | Cell.date d, some l => l ≤ d
  | _, _ => false

/-- Apply a boolean row mask to a column's cells (pandas boolean
indexing). -/
def zipMask : List Bool → List Cell → List Cell
  | b :: bs, y :: ys => if b then y :: zipMask bs ys else zipMask bs ys
  | _, _ => []

/-- Pandas `df[df[nm] >= cutoff]`: build the mask from the date column and apply
it to every column, preserving order and dtypes. -/
def filterRows (t : Table) (nm : String) (p : Cell → Bool) : Table :=
  t.map (fun c => { c with cells := zipMask ((getColD t nm).cells.map p) c.cells })

/-- Embeds `_apply_time_filter`, state-passing: the first component is the final
state of the caller's table (resolution may have coerced a column in
place), the second is the returned table. -/
def applyTimeFilter (t : Table) (tf : String) : Table × Table :=
  let r := resolveDate t
  if falsyOpt r.1 then (r.2, r.2)
  else
    let nm := r.1.getD ""
    let latest := colMax r.2 nm
    if tf = "모든 데이터" then (r.2, r.2)
    else
      match windowDaysList.find? (fun p => p.1 = tf) with
      | none => (r.2, r.2)
      | some p =>
          (r.2, filterRows r.2 nm (fun x => cellGE x (latest.map (fun l => l - p.2))))

/-! ## `get_mom_change` (src/streamlit_app.py) -/

/-- Pandas `series.dropna()`. -/
def dropna (xs : List Cell) : List Cell :=
  xs.filter (fun x => x ≠ Cell.missing)

/-- The numeric value of a cell (the series handled by `get_mom_change` is
numeric, so non-number non-missing cells do not occur there). -/
def cellNum (x : Cell) : Int :=
  match x with
  | Cell.num q => q
  | _ => 0

/-- Round the exact fraction a / b (b > 0) to the nearest integer, ties to
even — the rounding of Python's fixed-point formatting. -/
def rheFrac (a b : Int) : Int :=
  let f := Int.fdiv a b
  let r := a - f * b
  if 2 * r < b then f
  else if b < 2 * r then f + 1
  else if f % 2 = 0 then f else f + 1

/-- Python `f"{(a / b):+.1f}"` for the exact fraction a / b (b ≠ 0). -/
def fmtSignedFrac1 (a b : Int) : String :=
  let a2 := if b < 0 then -a else a
  let b2 := if b < 0 then -b else b
  let sgn := if a2 < 0 then "-" else "+"
  let m := (rheFrac (10 * (if a2 < 0 then -a2 else a2)) b2).toNat
  sgn ++ toString (m / 10) ++ "." ++ toString (m % 10)

/-- Python `f"{n:+.0f}"` for an integral value. -/
def fmtSigned0 (n : Int) : String :=
  (if n < 0 then "-" else "+") ++ toString n.natAbs

/-- The magnitude-tier formatting of `get_mom_change`: B / M / K by the
absolute change, else a signed integer; the tier divisions
`change / 1e9` etc. are formatted as exact fractions. -/
def change_str_of (change : Int) : String :=
  if 1000000000 ≤ |change| then fmtSignedFrac1 change 1000000000 ++ "B"
  else if 1000000 ≤ |change| then fmtSignedFrac1 change 1000000 ++ "M"
  else if 1000 ≤ |change| then fmtSignedFrac1 change 1000 ++ "K"
  else fmtSigned0 change

/-- Pandas `series.dropna().iloc[-1]` as a number. -/
def momCurr (series : List Cell) : Int :=
  let s := dropna series
  cellNum (s.getD (s.length - 1) Cell.missing)

/-- Pandas `series.dropna().iloc[-2]` as a number. -/
def momPrev (series : List Cell) : Int :=
  let s := dropna series
  cellNum (s.getD (s.length - 2) Cell.missing)

/-- Embeds `get_mom_change`: the `"[<change> <pct>]"` display string and the color
tag.  The percentage `change / previous * 100` is the exact fraction
`(change * 100) / previous`, formatted with `+.1f`. -/
def get_mom_change (series : List Cell) : String × String :=
  if (dropna series).length < 2 then ("0", "gray")
  else
    let change := momCurr series - momPrev series
    let prev := momPrev series
    let pctStr := if prev ≠ 0 then fmtSignedFrac1 (change * 100) prev
      else fmtSignedFrac1 0 1
    let color := if 0 < change then "green" else if change < 0 then "red" else "gray"
    ("[" ++ change_str_of change ++ " " ++ pctStr ++ "%]", color)

/-! ## Helper lemmas -/

theorem map_eq_self_mem {α : Type} {l : List α} {f : α → α} (h : l.map f = l) :
    ∀ x ∈ l, f x = x := by
  induction l with
  | nil => intro x hx; cases hx
  | cons a l ih =>
      simp only [List.map_cons, List.cons.injEq] at h
      intro x hx
      rcases List.mem_cons.mp hx with rfl | hx2
      · exact h.1
      · exact ih h.2 x hx2

theorem find?_first {α : Type} (p : α → Bool) :
    ∀ {l : List α} {a : α}, l.find? p = some a →
      ∃ l1 l2, l = l1 ++ a :: l2 ∧ p a = true ∧ ∀ x ∈ l1, p x = false := by
  intro l
  induction l with
  | nil => intro a h; cases h
  | cons b l ih =>
      intro a h
      by_cases hb : p b = true
      · rw [List.find?_cons_of_pos _ hb] at h
        cases h
        exact ⟨[], l, rfl, hb, by intro x hx; cases hx⟩
      · rw [List.find?_cons_of_neg _ hb] at h
        obtain ⟨l1, l2, hl, hpa, hfail⟩ := ih h
        refine ⟨b :: l1, l2, by rw [hl]; rfl, hpa, ?_⟩
        intro x hx
        rcases List.mem_cons.mp hx with rfl | hx2
        · exact Bool.eq_false_iff.mpr hb
        · exact hfail x hx2

theorem zipMask_nil_mask (ys : List Cell) : zipMask [] ys = [] := by
  cases ys <;> rfl

theorem zipMask_allFalse :
    ∀ (m : List Bool) (ys : List Cell), (∀ b ∈ m, b = false) → zipMask m ys = [] := by
  intro m
  induction m with
  | nil => intro ys _; exact zipMask_nil_mask ys
  | cons b m ih =>
      intro ys h
      cases ys with
      | nil => rfl
      | cons y ys =>
          have hb : b = false := h b (List.mem_cons_self b m)
          subst hb
          simpa [zipMask] using ih ys (fun x hx => h x (List.mem_cons_of_mem _ hx))

theorem zipMask_eq_map_kept (p : Cell → Bool) :
    ∀ (xs ys : List Cell), xs.length = ys.length →
      zipMask (xs.map p) ys
        = ((List.range xs.length).filter (fun i => p (xs.getD i Cell.missing))).map
            (fun i => ys.getD i Cell.missing) := by
  intro xs
  induction xs with
  | nil =>
      intro ys h
      simp [zipMask_nil_mask]
  | cons x xs ih =>
      intro ys h
      cases ys with
      | nil => simp at h
      | cons y ys =>
          simp only [List.length_cons, Nat.succ.injEq] at h
          have hfl : List.filter (fun i => p ((x :: xs).getD i Cell.missing))
                (List.map Nat.succ (List.range xs.length))
              = List.map Nat.succ
                  (List.filter (fun i => p (xs.getD i Cell.missing)) (List.range xs.length)) := by
            rw [List.filter_map]
            exact congrArg _ (List.filter_congr (fun i _ => by
              simp [Function.comp, List.getD_cons_succ]))
          have hmm : List.map (fun i => (y :: ys).getD i Cell.missing)
                (List.map Nat.succ
                  (List.filter (fun i => p (xs.getD i Cell.missing)) (List.range xs.length)))
              = List.map (fun i => ys.getD i Cell.missing)
                  (List.filter (fun i => p (xs.getD i Cell.missing)) (List.range xs.length)) := by
            rw [List.map_map]
            exact List.map_congr_left (fun i _ => by simp [Function.comp, List.getD_cons_succ])
          simp only [List.length_cons, List.range_succ_eq_map, List.filter_cons,
            List.getD_cons_zero, List.map_cons]
          by_cases hp : p x = true
          · simp only [zipMask, List.map_cons, hp, if_true, List.getD_cons_zero, hfl, hmm]
            exact congrArg (y :: ·) (ih ys h)
          · simp only [zipMask, List.map_cons, hp, Bool.false_eq_true, if_false, hfl, hmm]
            exact ih ys h

theorem cellGE_none (x : Cell) : cellGE x none = false := by
  cases x <;> rfl

theorem cellGE_some_iff (x : Cell) (l : Int) :
    cellGE x (some l) = true ↔ ∃ d, x = Cell.date d ∧ l ≤ d := by
  cases x <;> simp [cellGE]

/-- Alignment and per-column lengths survive a `setCol` write-back of a
coerced column. -/
theorem setCol_state (t : Table) (c : Column) (h : aligned t) (hc : c ∈ t) :
    (setCol t c.name (toDatetimeColumn c)).map (fun x => x.name) = t.map (fun x => x.name)
    ∧ (setCol t c.name (toDatetimeColumn c)).map (fun x => x.cells.length)
        = t.map (fun x => x.cells.length)
    ∧ rowCount (setCol t c.name (toDatetimeColumn c)) = rowCount t
    ∧ aligned (setCol t c.name (toDatetimeColumn c)) := by
  have hclen : c.cells.length = rowCount t := h c hc
  have hpoint : ∀ x ∈ t,
      ((if x.name = c.name then toDatetimeColumn c else x)).cells.length = x.cells.length := by
    intro x hx
    by_cases hn : x.name = c.name
    · rw [if_pos hn]
      show (c.cells.map toDatetimeCell).length = x.cells.length
      rw [List.length_map, hclen, h x hx]
    · rw [if_neg hn]
  have hnames : (setCol t c.name (toDatetimeColumn c)).map (fun x => x.name)
      = t.map (fun x => x.name) := by
    unfold setCol
    rw [List.map_map]
    refine List.map_congr_left ?_
    intro x _
    by_cases hn : x.name = c.name
    · simp [Function.comp, hn, toDatetimeColumn]
    · simp [Function.comp, hn]
  have hlens : (setCol t c.name (toDatetimeColumn c)).map (fun x => x.cells.length)
      = t.map (fun x => x.cells.length) := by
    unfold setCol
    rw [List.map_map]
    refine List.map_congr_left ?_
    intro x hx
    simpa [Function.comp] using hpoint x hx
  have hrow : rowCount (setCol t c.name (toDatetimeColumn c)) = rowCount t := by
    cases t with
    | nil => rfl
    | cons c0 rest =>
        show ((if c0.name = c.name then toDatetimeColumn c else c0)).cells.length
            = rowCount (c0 :: rest)
        rw [hpoint c0 (List.mem_cons_self c0 rest)]
        rfl
  refine ⟨hnames, hlens, hrow, ?_⟩
  intro x hx
  obtain ⟨x0, hx0, hfx⟩ := List.mem_map.mp hx
  rw [← hfx, hpoint x0 hx0, hrow]
  exact h x0 hx0

/-- The two write-back strategies preserve the table's shape. -/
theorem strat2_state (t : Table) (nm : String) (t2 : Table) (h : aligned t)
    (hs : strat2 t = some (nm, t2)) :
    t2.map (fun x => x.name) = t.map (fun x => x.name)
    ∧ t2.map (fun x => x.cells.length) = t.map (fun x => x.cells.length)
    ∧ rowCount t2 = rowCount t ∧ aligned t2 := by
  unfold strat2 at hs
  rcases hf : t.find? (fun c => hintHit c.name && decide (2 * parseOkCnt c > rowCount t)) with
    _ | c
  · rw [hf] at hs; cases hs
  · rw [hf] at hs
    cases hs
    exact setCol_state t c h (List.mem_of_find?_eq_some hf)

theorem strat3_state (t : Table) (nm : String) (t2 : Table) (h : aligned t)
    (hs : strat3 t = some (nm, t2)) :
    t2.map (fun x => x.name) = t.map (fun x => x.name)
    ∧ t2.map (fun x => x.cells.length) = t.map (fun x => x.cells.length)
    ∧ rowCount t2 = rowCount t ∧ aligned t2 := by
  unfold strat3 at hs
  rcases hf : t.find? probeOk with _ | c
  · rw [hf] at hs; cases hs
  · rw [hf] at hs
    cases hs
    exact setCol_state t c h (List.mem_of_find?_eq_some hf)

/-- Lemma: `step2` preserves the table's shape. -/
theorem step2_state (r : Option String × Table) (h : aligned r.2) :
    ((step2 r).2).map (fun x => x.name) = r.2.map (fun x => x.name)
    ∧ ((step2 r).2).map (fun x => x.cells.length) = r.2.map (fun x => x.cells.length)
    ∧ rowCount (step2 r).2 = rowCount r.2 ∧ aligned (step2 r).2 := by
  by_cases hf : falsyOpt r.1 = true
  · rcases h2 : strat2 r.2 with _ | p2
    · simp [step2, hf, h2, h]
    · obtain ⟨n2, t2⟩ := p2
      simpa [step2, hf, h2] using strat2_state r.2 n2 t2 h h2
  · simp [step2, hf, h]

/-- Lemma: `step3` preserves the table's shape. -/
theorem step3_state (r : Option String × Table) (h : aligned r.2) :
    ((step3 r).2).map (fun x => x.name) = r.2.map (fun x => x.name)
    ∧ ((step3 r).2).map (fun x => x.cells.length) = r.2.map (fun x => x.cells.length)
    ∧ rowCount (step3 r).2 = rowCount r.2 ∧ aligned (step3 r).2 := by
  by_cases hf : falsyOpt r.1 = true
  · rcases h3 : strat3 r.2 with _ | p3
    · simp [step3, hf, h3, h]
    · obtain ⟨n3, t3⟩ := p3
      simpa [step3, hf, h3] using strat3_state r.2 n3 t3 h h3
  · simp [step3, hf, h]

/-- Date-column resolution preserves the table's shape (names, lengths,
row count, alignment). -/
theorem resolveDate_state (t : Table) (h : aligned t) :
    ((resolveDate t).2).map (fun x => x.name) = t.map (fun x => x.name)
    ∧ ((resolveDate t).2).map (fun x => x.cells.length) = t.map (fun x => x.cells.length)
    ∧ rowCount (resolveDate t).2 = rowCount t ∧ aligned (resolveDate t).2 := by
  have h2 := step2_state (strat1 t, t) h
  have h3 := step3_state (step2 (strat1 t, t)) h2.2.2.2
  exact ⟨h3.1.trans h2.1, h3.2.1.trans h2.2.1, h3.2.2.1.trans h2.2.2.1, h3.2.2.2⟩

theorem strat1_none (t : Table) (h : ∀ c ∈ t, c.dtype ≠ Dtype.datetimeT) :
    strat1 t = none := by
  unfold strat1
  rw [List.find?_eq_none.mpr]
  · rfl
  · intro c hc
    simpa using h c hc

theorem strat1_found (t : Table) (n : String) (h : strat1 t = some n) :
    (t.find? (fun x => x.name = n)).isSome = true := by
  unfold strat1 at h
  rcases hf : t.find? (fun c => c.dtype = Dtype.datetimeT) with _ | c
  · rw [hf] at h; cases h
  · rw [hf] at h
    cases h
    exact List.find?_isSome.mpr ⟨c, List.mem_of_find?_eq_some hf, by simp⟩

theorem setCol_conv_found (t : Table) (c : Column) (hc : c ∈ t) :
    ((setCol t c.name (toDatetimeColumn c)).find? (fun x => x.name = c.name)).isSome = true := by
  refine List.find?_isSome.mpr ⟨toDatetimeColumn c, ?_, by simp [toDatetimeColumn]⟩
  refine List.mem_map.mpr ⟨c, hc, ?_⟩
  rw [if_pos rfl]

theorem strat2_found (t : Table) (n : String) (t2 : Table) (h : strat2 t = some (n, t2)) :
    (t2.find? (fun x => x.name = n)).isSome = true := by
  unfold strat2 at h
  rcases hf : t.find? (fun c => hintHit c.name && decide (2 * parseOkCnt c > rowCount t)) with
    _ | c
  · rw [hf] at h; cases h
  · rw [hf] at h
    cases h
    exact setCol_conv_found t c (List.mem_of_find?_eq_some hf)

theorem strat3_found (t : Table) (n : String) (t2 : Table) (h : strat3 t = some (n, t2)) :
    (t2.find? (fun x => x.name = n)).isSome = true := by
  unfold strat3 at h
  rcases hf : t.find? probeOk with _ | c
  · rw [hf] at h; cases h
  · rw [hf] at h
    cases h
    exact setCol_conv_found t c (List.mem_of_find?_eq_some hf)

/-- A successful `step2` result came either from strategy 2 or was already
there. -/
theorem step2_some (r : Option String × Table) (n : String) (u : Table)
    (h : step2 r = (some n, u)) :
    strat2 r.2 = some (n, u) ∨ r = (some n, u) := by
  unfold step2 at h
  by_cases hf : falsyOpt r.1 = true
  · rw [if_pos hf] at h
    rcases hs : strat2 r.2 with _ | p
    · rw [hs] at h
      right; exact h
    · rw [hs] at h
      obtain ⟨pn, pt⟩ := p
      obtain ⟨h1, h2⟩ := Prod.mk.injEq _ _ _ _ ▸ h
      left
      have hpn : pn = n := by simpa using h1
      have hpt : pt = u := by simpa using h2
      rw [hpn, hpt]
  · rw [if_neg hf] at h
    right; exact h

/-- A successful `step3` result came either from strategy 3 or was already
there. -/
theorem step3_some (r : Option String × Table) (n : String) (u : Table)
    (h : step3 r = (some n, u)) :
    strat3 r.2 = some (n, u) ∨ r = (some n, u) := by
  unfold step3 at h
  by_cases hf : falsyOpt r.1 = true
  · rw [if_pos hf] at h
    rcases hs : strat3 r.2 with _ | p
    · rw [hs] at h
      right; exact h
    · rw [hs] at h
      obtain ⟨pn, pt⟩ := p
      obtain ⟨h1, h2⟩ := Prod.mk.injEq _ _ _ _ ▸ h
      left
      have hpn : pn = n := by simpa using h1
      have hpt : pt = u := by simpa using h2
      rw [hpn, hpt]
  · rw [if_neg hf] at h
    right; exact h

/-- Whatever path resolution takes, the name it returns is the name of an
actual column of the table it returns. -/
theorem resolveDate_found (t : Table) (nm : String) (t2 : Table)
    (h : resolveDate t = (some nm, t2)) :
    (t2.find? (fun x => x.name = nm)).isSome = true := by
  unfold resolveDate at h
  rcases step3_some _ _ _ h with h3 | hr
  · exact strat3_found _ nm t2 h3
  · rcases step2_some _ _ _ hr with h2 | hr2
    · exact strat2_found t nm t2 h2
    · obtain ⟨h1, hteq⟩ := Prod.mk.injEq _ _ _ _ ▸ hr2
      rw [← hteq]
      exact strat1_found t nm h1

theorem getColD_mem (t : Table) (nm : String)
    (h : (t.find? (fun x => x.name = nm)).isSome = true) :
    getColD t nm ∈ t ∧ (getColD t nm).name = nm := by
  obtain ⟨c, hc⟩ := Option.isSome_iff_exists.mp h
  have hmem := List.mem_of_find?_eq_some hc
  have hname := List.find?_some hc
  unfold getColD
  rw [hc]
  exact ⟨hmem, by simpa using hname⟩

/-- When strategy 1 fails and the name-hint scan accepts a nonempty-named
column, resolution commits to it: the content probe is never consulted. -/
theorem resolveDate_of_strat2 (t : Table) (nm : String) (t2 : Table)
    (h1 : strat1 t = none) (h2 : strat2 t = some (nm, t2)) (hnm : nm ≠ "") :
    resolveDate t = (some nm, t2) := by
  unfold resolveDate
  rw [h1]
  have hs2 : step2 ((none : Option String), t) = (some nm, t2) := by
    unfold step2
    simp only [falsyOpt, if_true]
    rw [h2]
  rw [hs2]
  unfold step3
  simp [falsyOpt, hnm]

/-- When strategies 1 and 2 both fail, resolution returns whatever the
content probe produced. -/
theorem resolveDate_of_strat3 (t : Table) (nm : String) (t2 : Table)
    (h1 : strat1 t = none) (h2 : strat2 t = none) (h3 : strat3 t = some (nm, t2)) :
    resolveDate t = (some nm, t2) := by
  unfold resolveDate
  rw [h1]
  have hs2 : step2 ((none : Option String), t) = (none, t) := by
    unfold step2
    simp only [falsyOpt, if_true]
    rw [h2]
  rw [hs2]
  unfold step3
  simp only [falsyOpt, if_true]
  rw [h3]

/-- Under the unbounded sentinel the function returns the resolved (possibly
mutated) table itself, on every path. -/
theorem applyTimeFilter_all (t : Table) :
    (applyTimeFilter t "모든 데이터").2 = (resolveDate t).2 := by
  simp only [applyTimeFilter]
  rcases hr : resolveDate t with ⟨d, t2⟩
  by_cases hf : falsyOpt d = true
  · simp [hf]
  · simp [hf]

/-- The bounded labels map to their day counts and are distinct from the
sentinel. -/
theorem windowDays_find (tf : String) (days : Int) (h : (tf, days) ∈ windowDaysList) :
    windowDaysList.find? (fun p => p.1 = tf) = some (tf, days) ∧ tf ≠ "모든 데이터" := by
  simp only [windowDaysList, List.mem_cons, List.not_mem_nil, or_false] at h
  rcases h with h | h | h | h | h | h <;>
    simp only [Prod.mk.injEq] at h <;>
    obtain ⟨rfl, rfl⟩ := h <;>
    exact ⟨by decide, by decide⟩

/-- Unfolding the bounded-window path of `_apply_time_filter`. -/
theorem applyTimeFilter_bounded (t : Table) (tf : String) (days : Int) (nm : String)
    (t2 : Table) (hmem : (tf, days) ∈ windowDaysList)
    (hres : resolveDate t = (some nm, t2)) (hnm : nm ≠ "") :
    (applyTimeFilter t tf).2
      = filterRows t2 nm (fun x => cellGE x ((colMax t2 nm).map (fun l => l - days))) := by
  obtain ⟨hfind, hne⟩ := windowDays_find tf days hmem
  simp only [applyTimeFilter]
  rw [hres]
  simp only [falsyOpt, Option.getD_some]
  rw [if_neg (by simp [hnm]), if_neg hne, hfind]

/-! ## Example tables used by the claims -/

/-- Ten cells, six parsing as currency-formatted numbers, four missing
(the spec's first SchemaInferencer example). -/
def colA : Column :=
  ⟨"m", Dtype.objectT,
    [Cell.text "1,234", Cell.text "$56", Cell.text "₩78", Cell.text "9",
     Cell.text "10", Cell.text "11", Cell.missing, Cell.missing, Cell.missing,
     Cell.missing]⟩

/-- Four cells, two parsing as numbers (the spec's second example). -/
def colB : Column :=
  ⟨"m2", Dtype.objectT, [Cell.text "1", Cell.text "2", Cell.text "x", Cell.text "y"]⟩

/-- Ten cells: four numeric strings, six missing — every non-missing cell
converts (ratio 1.0) and four cells converted. -/
def cX : Column :=
  ⟨"a", Dtype.objectT,
    [Cell.text "1", Cell.text "2", Cell.text "3", Cell.text "4",
     Cell.missing, Cell.missing, Cell.missing, Cell.missing, Cell.missing,
     Cell.missing]⟩

/-! ## C1 -/

/-- Claim C1, amended: for an object-dtype column whose name carries no
date keyword, `_prepare` assigns Numeric iff the number of cells that
convert is at least `max 3 (total row count / 2)` — the denominator is the
full column length, missing cells included, not the non-missing count. -/
theorem c1_amended (c : Column) (h1 : c.dtype = Dtype.objectT)
    (h2 : prepKeyword c.name = false) :
    (preparedCol c).dtype = Dtype.floatT ↔
      (c.cells.map safeNumberCell).countP (fun x => x ≠ Cell.missing)
        ≥ max 3 (c.cells.length / 2) := by
  unfold preparedCol pass1Col
  rw [h2]
  simp only [Bool.false_eq_true, if_false, h1, eq_self_iff_true, if_true]
  by_cases hcnt : (c.cells.map safeNumberCell).countP (fun x => x ≠ Cell.missing)
      ≥ max 3 (c.cells.length / 2)
  · rw [if_pos hcnt]
    have hpt : pass2Col ⟨c.name, Dtype.floatT, c.cells.map safeNumberCell⟩
        = ⟨c.name, Dtype.floatT, c.cells.map safeNumberCell⟩ := by
      unfold pass2Col
      rw [if_neg (by simp)]
    rw [hpt]
    exact iff_of_true rfl hcnt
  · rw [if_neg hcnt]
    refine iff_of_false ?_ hcnt
    unfold pass2Col
    rw [if_pos h1]
    intro hft
    revert hft
    split_ifs <;> simp [toDatetimeColumn, h1]

/-- Witness for C1: the two spec examples, both consistent with the amended
rule — six of ten convert (6 ≥ max 3 5: Numeric), two of four convert
(2 < 3: Text). -/
theorem c1_witness :
    (preparedCol colA).dtype = Dtype.floatT
    ∧ ¬ (preparedCol colB).dtype = Dtype.floatT :=
  ⟨(c1_amended colA (by decide) (by decide)).mpr (by decide),
   fun h => absurd ((c1_amended colB (by decide) (by decide)).mp h) (by decide)⟩

/-- Counterexample to C1 as stated: in `cX` every one of the four
non-missing cells converts (success ratio 1.0 ≥ 0.5) and at least three
cells converted, yet the column is left as Text, because the code compares
against `max(3, len(column)//2) = 5`, dividing by the total length 10. -/
theorem c1_cex :
    (cX.cells.map safeNumberCell).countP (fun x => x ≠ Cell.missing) = 4
    ∧ cX.cells.countP (fun x => x ≠ Cell.missing) = 4
    ∧ (4 : Nat) ≥ 3
    ∧ (preparedCol cX).dtype ≠ Dtype.floatT := by
  refine ⟨by decide, by decide, by decide, by decide⟩

/-! ## C2 -/

/-- A table with a pre-typed date column whose cells are 2024-01-31 and
2023-01-31, the spec's 12-month example: the code's cutoff is
`2024-01-31 − 365 days = 2023-01-31`, so the second row is kept. -/
def ex2 : Table :=
  [⟨"d", Dtype.datetimeT,
    [Cell.date (daysFromCivil 2024 1 31), Cell.date (daysFromCivil 2023 1 31)]⟩,
   ⟨"v", Dtype.floatT, [Cell.num 1, Cell.num 2]⟩]

/-- Three rows for the bounded-filter witness: dates 1000, 900 and missing,
window of 90 days, cutoff 910. -/
def ex2w : Table :=
  [⟨"d", Dtype.datetimeT, [Cell.date 1000, Cell.date 900, Cell.missing]⟩,
   ⟨"v", Dtype.floatT, [Cell.num 1, Cell.num 2, Cell.num 3]⟩]

/-- Claim C2, amended: for a bounded window with day count `days` and a
resolved date column with maximum non-missing value `L`, the filter keeps
exactly the rows whose date cell is ≥ `L − days`, in original order (every
column is restricted to those row indices), and every kept row's date cell
is a non-missing date ≥ the cutoff — but the cutoff of the 12-month example
is 2023-01-31 (365 days before 2024-01-31), not 2023-02-01. -/
theorem c2_amended (t : Table) (tf : String) (days : Int) (nm : String) (t2 : Table)
    (L : Int) (hal : aligned t) (hmem : (tf, days) ∈ windowDaysList)
    (hres : resolveDate t = (some nm, t2)) (hnm : nm ≠ "")
    (hmax : colMax t2 nm = some L) :
    (applyTimeFilter t tf).2
      = t2.map (fun c => { c with cells :=
          (((List.range (rowCount t2)).filter (fun i =>
              cellGE ((getColD t2 nm).cells.getD i Cell.missing) (some (L - days)))).map
            (fun i => c.cells.getD i Cell.missing)) })
    ∧ ∀ i ∈ (List.range (rowCount t2)).filter (fun i =>
          cellGE ((getColD t2 nm).cells.getD i Cell.missing) (some (L - days))),
        ∃ d, (getColD t2 nm).cells.getD i Cell.missing = Cell.date d ∧ L - days ≤ d := by
  have hstate := resolveDate_state t hal
  rw [hres] at hstate
  have hal2 : aligned t2 := hstate.2.2.2
  have hfound := resolveDate_found t nm t2 hres
  obtain ⟨hdcmem, _⟩ := getColD_mem t2 nm hfound
  have hdclen : (getColD t2 nm).cells.length = rowCount t2 := hal2 _ hdcmem
  have hmain := applyTimeFilter_bounded t tf days nm t2 hmem hres hnm
  rw [hmax] at hmain
  simp only [Option.map_some'] at hmain
  constructor
  · rw [hmain]
    unfold filterRows
    refine List.map_congr_left ?_
    intro c hc
    have hclen : c.cells.length = rowCount t2 := hal2 c hc
    have hz := zipMask_eq_map_kept (fun x => cellGE x (some (L - days)))
        (getColD t2 nm).cells c.cells (by rw [hdclen, hclen])
    rw [hdclen] at hz
    rw [hz]
  · intro i hi
    exact (cellGE_some_iff _ _).mp (List.mem_filter.mp hi).2

/-- Witness for C2: on `ex2w` with the 90-day window the filter keeps
exactly row 0 (date 1000 ≥ cutoff 910), drops the older row and the
missing-date row, across both columns. -/
theorem c2_witness :
    aligned ex2w ∧ resolveDate ex2w = (some "d", ex2w)
    ∧ colMax ex2w "d" = some 1000
    ∧ (applyTimeFilter ex2w "최근 3개월").2
        = [⟨"d", Dtype.datetimeT, [Cell.date 1000]⟩,
           ⟨"v", Dtype.floatT, [Cell.num 1]⟩] := by
  refine ⟨by decide, by decide, by decide, ?_⟩
  have h := (c2_amended ex2w "최근 3개월" 90 "d" ex2w 1000 (by decide) (by decide)
    (by decide) (by decide) (by decide)).1
  exact h.trans (by decide)

/-- Counterexample to C2's example: with latest 2024-01-31 and a 12-month
window the code returns the 2023-01-31 row as well (the whole table here),
although 2023-01-31 is strictly before the claim's cutoff 2023-02-01. -/
theorem c2_cex :
    (applyTimeFilter ex2 "최근 12개월").2 = ex2
    ∧ daysFromCivil 2023 1 31 < daysFromCivil 2023 2 1 := by
  exact ⟨by decide, by decide⟩

/-! ## C3 -/

/-- A table whose keyword-named text column parses as dates: the name-hint
scan coerces it in place before the sentinel branch returns. -/
def ex3 : Table :=
  [⟨"날짜", Dtype.objectT, [Cell.text "2024-01-05", Cell.text "2024-02-05"]⟩]

/-- A table where no cell parses as a date at all. -/
def exM : Table :=
  [⟨"a", Dtype.objectT, [Cell.missing, Cell.text "x"]⟩]

/-- Claim C3, amended: under the unbounded sentinel the function returns
the table as left by date-column resolution — same column names and same
per-column row counts as the input — and returns the input exactly
unchanged whenever no cell of any column survives date coercion (in
particular when the date column is entirely Missing); when resolution
accepts a text column, that column's cells come back coerced. -/
theorem c3_amended (t : Table) (hal : aligned t) :
    (applyTimeFilter t "모든 데이터").2 = (resolveDate t).2
    ∧ ((resolveDate t).2).map (fun c => c.name) = t.map (fun c => c.name)
    ∧ ((resolveDate t).2).map (fun c => c.cells.length) = t.map (fun c => c.cells.length)
    ∧ ((∀ c ∈ t, parseOkCnt c = 0) → (applyTimeFilter t "모든 데이터").2 = t) := by
  have hstate := resolveDate_state t hal
  refine ⟨applyTimeFilter_all t, hstate.1, hstate.2.1, ?_⟩
  intro hzero
  rw [applyTimeFilter_all t]
  have h2 : strat2 t = none := by
    unfold strat2
    have hfind : t.find? (fun c => hintHit c.name && decide (2 * parseOkCnt c > rowCount t))
        = none := by
      refine List.find?_eq_none.mpr ?_
      intro c hc
      simp only [Bool.and_eq_true, decide_eq_true_eq, not_and]
      intro _
      rw [hzero c hc]
      omega
    rw [hfind]
  have h3 : strat3 t = none := by
    unfold strat3
    have hfind : t.find? probeOk = none := by
      refine List.find?_eq_none.mpr ?_
      intro c hc
      have hle : (c.cells.take 10).countP (fun x => toDatetimeCell x ≠ Cell.missing)
          ≤ parseOkCnt c :=
        List.Sublist.countP_le _ (List.take_sublist 10 c.cells)
      rw [hzero c hc] at hle
      simp only [probeOk, decide_eq_true_eq]
      omega
    rw [hfind]
  have hs2 : step2 (strat1 t, t) = (strat1 t, t) := by
    unfold step2
    by_cases hf : falsyOpt (strat1 t, t).1 = true
    · rw [if_pos hf]
      simp only [h2]
    · rw [if_neg hf]
  have hs3 : step3 (strat1 t, t) = (strat1 t, t) := by
    unfold step3
    by_cases hf : falsyOpt (strat1 t, t).1 = true
    · rw [if_pos hf]
      simp only [h3]
    · rw [if_neg hf]
  unfold resolveDate
  rw [hs2, hs3]

/-- Witness for C3: the all-unparseable table passes through completely
unchanged under the sentinel. -/
theorem c3_witness :
    aligned exM ∧ (∀ c ∈ exM, parseOkCnt c = 0)
    ∧ (applyTimeFilter exM "모든 데이터").2 = exM := by
  refine ⟨by decide, by decide, (c3_amended exM (by decide)).2.2.2 (by decide)⟩

/-- Counterexample to C3 as stated: on `ex3` the sentinel branch does not
return the input with its cell values intact — the name-hint scan already
replaced the text cells of "날짜" by coerced dates in place, so the
returned table differs from the input. -/
theorem c3_cex : (applyTimeFilter ex3 "모든 데이터").2 ≠ ex3 := by
  decide

/-! ## C4 -/

/-- A table whose pre-typed date column is entirely missing (all NaT). -/
def ex4 : Table :=
  [⟨"d", Dtype.datetimeT, [Cell.missing, Cell.missing]⟩,
   ⟨"v", Dtype.floatT, [Cell.num 1, Cell.num 2]⟩]

/-- Claim C4, amended: when the resolved date column has no non-missing
value, a bounded window returns the EMPTY table (every column's cells
emptied) — `NaT` comparisons are all false — not the input unchanged. -/
theorem c4_amended (t : Table) (tf : String) (days : Int) (nm : String) (t2 : Table)
    (hmem : (tf, days) ∈ windowDaysList) (hres : resolveDate t = (some nm, t2))
    (hnm : nm ≠ "") (hmax : colMax t2 nm = none) :
    (applyTimeFilter t tf).2 = t2.map (fun c => { c with cells := ([] : List Cell) }) := by
  have hmain := applyTimeFilter_bounded t tf days nm t2 hmem hres hnm
  rw [hmax] at hmain
  simp only [Option.map_none'] at hmain
  rw [hmain]
  unfold filterRows
  refine List.map_congr_left ?_
  intro c _
  have hz : zipMask ((getColD t2 nm).cells.map (fun x => cellGE x none)) c.cells = [] := by
    apply zipMask_allFalse
    intro b hb
    obtain ⟨x, _, hx⟩ := List.mem_map.mp hb
    rw [← hx, cellGE_none]
  rw [hz]

/-- Witness for C4: the all-missing date axis with a 90-day window yields
the empty table. -/
theorem c4_witness :
    ("최근 3개월", (90 : Int)) ∈ windowDaysList ∧ resolveDate ex4 = (some "d", ex4)
    ∧ colMax ex4 "d" = none
    ∧ (applyTimeFilter ex4 "최근 3개월").2
        = ex4.map (fun c => { c with cells := ([] : List Cell) }) := by
  exact ⟨by decide, by decide, by decide,
    c4_amended ex4 "최근 3개월" 90 "d" ex4 (by decide) (by decide) (by decide) (by decide)⟩

/-- Counterexample to C4 as stated: on `ex4` the bounded filter does not
return the input unchanged — it returns a table with zero rows. -/
theorem c4_cex :
    (applyTimeFilter ex4 "최근 3개월").2 ≠ ex4
    ∧ rowCount (applyTimeFilter ex4 "최근 3개월").2 = 0 := by
  exact ⟨by decide, by decide⟩

/-! ## C5 -/

/-- A keyword-named column ("거래일" contains the keyword "일") with 80%
parseable cells, followed by an anonymous column that is 100% parseable by
content shape. -/
def t5 : Table :=
  [⟨"거래일", Dtype.objectT,
    [Cell.text "2024-01-01", Cell.text "2024-02-01", Cell.text "2024-03-01",
     Cell.text "2024-04-01", Cell.text "zz"]⟩,
   ⟨"b", Dtype.objectT,
    [Cell.text "2024-01-02", Cell.text "2024-02-02", Cell.text "2024-03-02",
     Cell.text "2024-04-02", Cell.text "2024-05-02"]⟩]

/-- Claim C5, confirmed: with no pre-typed datetime column, the name-hint
scan runs before any content probing — when it accepts, resolution commits
to its column and the content probe is never consulted; it accepts exactly
when some keyword-named column has strictly more than 50% of the table's
rows parsing (`2 * parsed > rows`), and the accepted column is the first
keyword column over the threshold (every earlier column fails the combined
test). -/
theorem c5_confirmed (t : Table)
    (h1 : ∀ c ∈ t, c.dtype ≠ Dtype.datetimeT)
    (h2 : ∀ c ∈ t, c.name ≠ "") :
    ((∃ r, strat2 t = some r)
        ↔ ∃ c ∈ t, hintHit c.name = true ∧ 2 * parseOkCnt c > rowCount t)
    ∧ ∀ nm t2, strat2 t = some (nm, t2) →
        resolveDate t = (some nm, t2)
        ∧ ∃ l1 l2 c, t = l1 ++ c :: l2 ∧ c.name = nm
            ∧ hintHit c.name = true ∧ 2 * parseOkCnt c > rowCount t
            ∧ t2 = setCol t nm (toDatetimeColumn c)
            ∧ ∀ x ∈ l1, ¬(hintHit x.name = true ∧ 2 * parseOkCnt x > rowCount t) := by
  have hs1 : strat1 t = none := strat1_none t h1
  constructor
  · constructor
    · rintro ⟨r, hr⟩
      unfold strat2 at hr
      rcases hfind : t.find?
          (fun c => hintHit c.name && decide (2 * parseOkCnt c > rowCount t)) with _ | c
      · rw [hfind] at hr; cases hr
      · have hp := List.find?_some hfind
        simp only [Bool.and_eq_true, decide_eq_true_eq] at hp
        exact ⟨c, List.mem_of_find?_eq_some hfind, hp⟩
    · rintro ⟨c, hc, hhint, hcnt⟩
      have hsome : (t.find?
          (fun c => hintHit c.name && decide (2 * parseOkCnt c > rowCount t))).isSome = true :=
        List.find?_isSome.mpr ⟨c, hc, by simp [hhint, hcnt]⟩
      unfold strat2
      rcases hfind : t.find?
          (fun c => hintHit c.name && decide (2 * parseOkCnt c > rowCount t)) with _ | c0
      · rw [hfind] at hsome; cases hsome
      · try rw [hfind]
        exact ⟨_, rfl⟩
  · intro nm t2 hs2
    unfold strat2 at hs2
    rcases hfind : t.find?
        (fun c => hintHit c.name && decide (2 * parseOkCnt c > rowCount t)) with _ | c0
    · rw [hfind] at hs2; cases hs2
    · rw [hfind] at hs2
      cases hs2
      have hc0 : c0 ∈ t := List.mem_of_find?_eq_some hfind
      have hp := List.find?_some hfind
      simp only [Bool.and_eq_true, decide_eq_true_eq] at hp
      obtain ⟨l1, l2, hsplit, _, hfail⟩ := find?_first _ hfind
      refine ⟨resolveDate_of_strat2 t c0.name _ hs1 (by unfold strat2; rw [hfind])
          (h2 c0 hc0),
        l1, l2, c0, hsplit, rfl, hp.1, hp.2, rfl, ?_⟩
      intro x hx hcontra
      have hpx : (hintHit x.name && decide (2 * parseOkCnt x > rowCount t)) = true := by
        simp [hcontra.1, hcontra.2]
      rw [hfail x hx] at hpx
      cases hpx

/-- Witness for C5: on `t5` the resolver selects the 80%-parseable
keyword-named column "거래일", not the fully parseable anonymous one. -/
theorem c5_witness :
    hintHit "거래일" = true
    ∧ parseOkCnt ⟨"b", Dtype.objectT,
        [Cell.text "2024-01-02", Cell.text "2024-02-02", Cell.text "2024-03-02",
         Cell.text "2024-04-02", Cell.text "2024-05-02"]⟩ = 5
    ∧ (resolveDate t5).1 = some "거래일" := by
  refine ⟨by decide, by decide, ?_⟩
  rcases hs2 : strat2 t5 with _ | ⟨nm, t2⟩
  · exact absurd hs2 (by decide)
  · have h := (c5_confirmed t5 (by decide) (by decide)).2 nm t2 hs2
    rw [h.1]
    have hname : (strat2 t5).map (fun p => p.1) = some "거래일" := by decide
    rw [hs2] at hname
    simpa using hname

/-! ## C6 -/

/-- Sixteen cells: the first ten are six missing followed by four parseable
dates, the last six are parseable dates.  The first ten NON-MISSING cells
are all parseable, but the code probes the first ten cells by position. -/
def ex6c : Column :=
  ⟨"c", Dtype.objectT,
    [Cell.missing, Cell.missing, Cell.missing, Cell.missing, Cell.missing,
     Cell.missing, Cell.text "2024-01-01", Cell.text "2024-01-02",
     Cell.text "2024-01-03", Cell.text "2024-01-04", Cell.text "2024-01-05",
     Cell.text "2024-01-06", Cell.text "2024-01-07", Cell.text "2024-01-08",
     Cell.text "2024-01-09", Cell.text "2024-01-10"]⟩

def ex6 : Table := [ex6c]

/-- All-parseable ten-cell column accepted by the content probe. -/
def ex6b : Table :=
  [⟨"c", Dtype.objectT,
    [Cell.text "2024-01-01", Cell.text "2024-01-02", Cell.text "2024-01-03",
     Cell.text "2024-01-04", Cell.text "2024-01-05", Cell.text "2024-01-06",
     Cell.text "2024-01-07", Cell.text "2024-01-08", Cell.text "2024-01-09",
     Cell.text "2024-01-10"]⟩]

/-- Claim C6, amended: the content probe (run only after the typed scan and
the name-hint scan both fail) samples each column's FIRST TEN CELLS BY
POSITION — missing cells count against the window, it is not the first ten
non-missing cells — and accepts the first column, in original column order,
with at least 5 of those ten coercing; the accepted column is then coerced
in full and written back. -/
theorem c6_amended (t : Table)
    (h1 : ∀ c ∈ t, c.dtype ≠ Dtype.datetimeT)
    (hs2 : strat2 t = none) :
    ((∃ r, strat3 t = some r) ↔ ∃ c ∈ t, probeOk c = true)
    ∧ ∀ nm t2, strat3 t = some (nm, t2) →
        resolveDate t = (some nm, t2)
        ∧ ∃ l1 l2 c, t = l1 ++ c :: l2 ∧ c.name = nm ∧ probeOk c = true
            ∧ t2 = setCol t nm (toDatetimeColumn c)
            ∧ ∀ x ∈ l1, probeOk x = false := by
  have hs1 : strat1 t = none := strat1_none t h1
  constructor
  · constructor
    · rintro ⟨r, hr⟩
      unfold strat3 at hr
      rcases hfind : t.find? probeOk with _ | c
      · rw [hfind] at hr; cases hr
      · exact ⟨c, List.mem_of_find?_eq_some hfind, List.find?_some hfind⟩
    · rintro ⟨c, hc, hp⟩
      have hsome : (t.find? probeOk).isSome = true := List.find?_isSome.mpr ⟨c, hc, hp⟩
      unfold strat3
      rcases hfind : t.find? probeOk with _ | c0
      · rw [hfind] at hsome; cases hsome
      · try rw [hfind]
        exact ⟨_, rfl⟩
  · intro nm t2 hs3
    unfold strat3 at hs3
    rcases hfind : t.find? probeOk with _ | c0
    · rw [hfind] at hs3; cases hs3
    · rw [hfind] at hs3
      cases hs3
      obtain ⟨l1, l2, hsplit, hpc, hfail⟩ := find?_first _ hfind
      exact ⟨resolveDate_of_strat3 t c0.name _ hs1 hs2 (by unfold strat3; rw [hfind]),
        l1, l2, c0, hsplit, rfl, hpc, rfl, hfail⟩

/-- Witness for C6: a column whose first ten cells all parse is accepted by
the probe and resolution returns it coerced in full. -/
theorem c6_witness :
    strat2 ex6b = none ∧ (∃ c ∈ ex6b, probeOk c = true)
    ∧ (resolveDate ex6b).1 = some "c" := by
  refine ⟨by decide, ⟨ex6b.getD 0 ⟨"", Dtype.objectT, []⟩, by decide, by decide⟩, ?_⟩
  rcases hs3 : strat3 ex6b with _ | ⟨nm, t2⟩
  · exact absurd hs3 (by decide)
  · have h := (c6_amended ex6b (by decide) (by decide)).2 nm t2 hs3
    rw [h.1]
    have hname : (strat3 ex6b).map (fun p => p.1) = some "c" := by decide
    rw [hs3] at hname
    simpa using hname

/-- Counterexample to C6 as stated: in `ex6` the first ten NON-MISSING
cells of the only column all parse as dates (10 of 10 ≥ 5), so the claim
predicts the column is accepted — but the code samples `head(10)`, sees
only four parseable cells there, and rejects: no date column is found and
the table is left untouched. -/
theorem c6_cex :
    ((ex6c.cells.filter (fun x => x ≠ Cell.missing)).take 10).countP
        (fun x => toDatetimeCell x ≠ Cell.missing) = 10
    ∧ (ex6c.cells.take 10).countP (fun x => toDatetimeCell x ≠ Cell.missing) = 4
    ∧ (resolveDate ex6).1 = none ∧ (resolveDate ex6).2 = ex6 := by
  exact ⟨by decide, by decide, by decide, by decide⟩

/-! ## C7 -/

/-- The spec's billion-tier example series. -/
def ser7 : List Cell := [Cell.num 2000000000, Cell.num 2500000000]

/-- Counterexample to C7: the change 500,000,000 is below the 1e9 tier
threshold, so the magnitude string is not "+0.5B". -/
theorem c7_cex : change_str_of (momCurr ser7 - momPrev ser7) ≠ "+0.5B" := by
  decide

/-- Claim C7, amended: on [2e9, 2.5e9] the absolute change 5e8 falls in the
millions tier (≥ 1e6, < 1e9), so `get_mom_change` formats it as "+500.0M"
(with percentage +25.0% and color green). -/
theorem c7_amended :
    change_str_of (momCurr ser7 - momPrev ser7) = "+500.0M"
    ∧ get_mom_change ser7 = ("[+500.0M +25.0%]", "green") := by
  exact ⟨by decide, by decide⟩

/-! ## C8 -/

theorem letterLoop_isOk (l : List Char) :
    ∀ v : Int, ((letterLoop l v).isOk = false ↔ ∃ c ∈ l, ¬('A' ≤ c ∧ c ≤ 'Z')) := by
  induction l with
  | nil => intro v; simp [letterLoop, Except.isOk, Except.toBool]
  | cons ch r ih =>
      intro v
      by_cases hch : 'A' ≤ ch ∧ ch ≤ 'Z'
      · simp only [letterLoop, if_pos hch, List.mem_cons]
        rw [ih]
        constructor
        · rintro ⟨c, hc, hbad⟩
          exact ⟨c, Or.inr hc, hbad⟩
        · rintro ⟨c, hc | hc, hbad⟩
          · exact absurd (hc ▸ hch) hbad
          · exact ⟨c, hc, hbad⟩
      · simp only [letterLoop, if_neg hch, List.mem_cons]
        constructor
        · intro _
          exact ⟨ch, Or.inl rfl, hch⟩
        · intro _
          rfl

/-- Claim C8, amended: `column_index_from_letter` fails (with the typed
"Invalid column letter" error) iff some character of the trimmed,
upper-cased input lies outside A–Z; the EMPTY input does NOT fail — it
returns −1 — and that sentinel is caught by `get_series_by_letter` as an
out-of-range failure, so misaddressing is still surfaced, but as
`OutOfRange`, not `InvalidAddress`; letter errors propagate unchanged. -/
theorem c8_amended (s : String) (t : Table) :
    ((column_index_from_letter s).isOk = false
        ↔ ∃ c ∈ (trimList s.toList).map Char.toUpper, ¬('A' ≤ c ∧ c ≤ 'Z'))
    ∧ (∀ e, column_index_from_letter s = Except.error e →
        get_series_by_letter t s = Except.error e)
    ∧ get_series_by_letter t "" = Except.error AddrErr.outOfRange := by
  refine ⟨letterLoop_isOk _ 0, ?_, ?_⟩
  · intro e he
    unfold get_series_by_letter
    rw [he]
  · unfold get_series_by_letter
    have h0 : column_index_from_letter "" = Except.ok (-1) := rfl
    rw [h0]
    show (if (-1 : Int) < 0 ∨ (t.length : Int) ≤ -1 then Except.error AddrErr.outOfRange
        else Except.ok (t.getD (-1 : Int).toNat ⟨"", Dtype.objectT, []⟩))
      = Except.error AddrErr.outOfRange
    rw [if_pos (Or.inl (by norm_num))]

/-- Witness for C8: a malformed letter is rejected and the rejection
propagates through the series lookup. -/
theorem c8_witness :
    get_series_by_letter ([] : Table) "a3" = Except.error AddrErr.invalidLetter :=
  (c8_amended "a3" []).2.1 AddrErr.invalidLetter rfl

/-- Counterexample to C8 as stated: the empty input does not fail with the
typed letter error — the loop body never runs and the function returns the
index −1. -/
theorem c8_cex : column_index_from_letter "" = Except.ok (-1) := rfl

/-! ## C9 -/

theorem safeNumberCell_idem (x : Cell) :
    safeNumberCell (safeNumberCell x) = safeNumberCell x := by
  cases x with
  | missing => rfl
  | num q => rfl
  | date d => rfl
  | text s =>
      simp only [safeNumberCell, String.toList]
      rcases hp : parseIntNum (stripMoney s.data) with _ | q <;> simp [hp]

/-- Claim C9, confirmed: `safe_number` is idempotent — an already-numeric
series (numbers and missing cells) is returned with the same values, and a
second application never changes the result of the first. -/
theorem c9_confirmed (xs : List Cell) :
    ((∀ x ∈ xs, x = Cell.missing ∨ ∃ q, x = Cell.num q) → safe_number xs = xs)
    ∧ safe_number (safe_number xs) = safe_number xs := by
  constructor
  · intro h
    unfold safe_number
    have hid : ∀ x ∈ xs, safeNumberCell x = x := by
      intro x hx
      rcases h x hx with rfl | ⟨q, rfl⟩ <;> rfl
    calc xs.map safeNumberCell = xs.map id := List.map_congr_left (by simpa using hid)
      _ = xs := List.map_id xs
  · unfold safe_number
    rw [List.map_map]
    exact List.map_congr_left (fun x _ => by
      simp only [Function.comp]
      exact safeNumberCell_idem x)

/-- Witness for C9 at a concrete numeric series. -/
theorem c9_witness :
    safe_number [Cell.num 3, Cell.missing] = [Cell.num 3, Cell.missing]
    ∧ safe_number (safe_number [Cell.num 3, Cell.missing])
        = safe_number [Cell.num 3, Cell.missing] := by
  refine ⟨(c9_confirmed _).1 ?_, (c9_confirmed _).2⟩
  intro x hx
  simp only [List.mem_cons, List.not_mem_nil, or_false] at hx
  rcases hx with rfl | rfl
  · exact Or.inr ⟨3, rfl⟩
  · exact Or.inl rfl

/-! ## C10 -/

/-- A keyword-named text date column plus a text value column. -/
def t10 : Table :=
  [⟨"날짜", Dtype.objectT, [Cell.text "2024-01-05", Cell.text "2024-02-05"]⟩,
   ⟨"v", Dtype.objectT, [Cell.text "1", Cell.text "2"]⟩]

/-- Claim C10, confirmed: whenever the name-hint scan or the content probe
accepts a column (of a table with no pre-typed datetime column), the
coerced datetime values are written back into that column of the caller's
table in place — the accepted column's cells become `toDatetimeCell` of the
originals (parseable text becomes dates, unparseable cells become Missing,
the dtype becomes datetime) — so the post-resolution table always differs
from the input, and the unbounded-sentinel filter returns that mutated
table itself. -/
theorem c10_confirmed (t : Table) (nm : String) (t2 : Table)
    (h1 : ∀ c ∈ t, c.dtype ≠ Dtype.datetimeT)
    (hs : strat2 t = some (nm, t2) ∨ (strat2 t = none ∧ strat3 t = some (nm, t2))) :
    ∃ c ∈ t, c.name = nm
      ∧ t2 = setCol t nm (toDatetimeColumn c)
      ∧ (toDatetimeColumn c).cells = c.cells.map toDatetimeCell
      ∧ toDatetimeColumn c ≠ c
      ∧ t2 ≠ t
      ∧ (nm ≠ "" → (resolveDate t).2 = t2 ∧ (applyTimeFilter t "모든 데이터").2 = t2) := by
  have hs1 : strat1 t = none := strat1_none t h1
  have hmain : ∃ c ∈ t, c.name = nm ∧ t2 = setCol t nm (toDatetimeColumn c)
      ∧ (nm ≠ "" → resolveDate t = (some nm, t2)) := by
    rcases hs with h2 | ⟨h2, h3⟩
    · unfold strat2 at h2
      rcases hfind : t.find?
          (fun c => hintHit c.name && decide (2 * parseOkCnt c > rowCount t)) with _ | c0
      · rw [hfind] at h2; cases h2
      · rw [hfind] at h2
        cases h2
        exact ⟨c0, List.mem_of_find?_eq_some hfind, rfl, rfl,
          fun hne => resolveDate_of_strat2 t _ _ hs1 (by unfold strat2; rw [hfind]) hne⟩
    · unfold strat3 at h3
      rcases hfind : t.find? probeOk with _ | c0
      · rw [hfind] at h3; cases h3
      · rw [hfind] at h3
        cases h3
        exact ⟨c0, List.mem_of_find?_eq_some hfind, rfl, rfl,
          fun _ => resolveDate_of_strat3 t _ _ hs1 h2 (by unfold strat3; rw [hfind])⟩
  obtain ⟨c, hc, hname, ht2, hres⟩ := hmain
  have hdt := h1 c hc
  have hconvne : toDatetimeColumn c ≠ c := by
    intro heq
    have hd := congrArg Column.dtype heq
    simp only [toDatetimeColumn] at hd
    exact hdt hd.symm
  have ht2ne : t2 ≠ t := by
    intro heq
    rw [ht2] at heq
    have hpoint := map_eq_self_mem heq c hc
    rw [if_pos hname] at hpoint
    exact hconvne hpoint
  refine ⟨c, hc, hname, ht2, rfl, hconvne, ht2ne, ?_⟩
  intro hne
  have hr := hres hne
  exact ⟨by rw [hr], by rw [applyTimeFilter_all, hr]⟩

/-- Witness for C10: on `t10` the name-hint scan accepts "날짜"; the table
after the call differs from the table before, also under the unbounded
sentinel. -/
theorem c10_witness :
    (∀ c ∈ t10, c.dtype ≠ Dtype.datetimeT)
    ∧ (resolveDate t10).2 ≠ t10
    ∧ (applyTimeFilter t10 "모든 데이터").2 ≠ t10 := by
  refine ⟨by decide, ?_, ?_⟩
  all_goals
    rcases hs2 : strat2 t10 with _ | ⟨nm, t2⟩
    · exact absurd hs2 (by decide)
    · obtain ⟨c, hc, hname, ht2, hcells, hconvne, ht2ne, himp⟩ :=
        c10_confirmed t10 nm t2 (by decide) (Or.inl hs2)
      have hnm : nm ≠ "" := by
        have hname2 : (strat2 t10).map (fun p => p.1) = some "날짜" := by decide
        rw [hs2] at hname2
        simp only [Option.map_some'] at hname2
        have : nm = "날짜" := by simpa using hname2
        rw [this]
        decide
      obtain ⟨hres, happ⟩ := himp hnm
      first
      | (rw [hres]; exact ht2ne)
      | (rw [happ]; exact ht2ne)

end FinDash
